import Mathlib

/-!
Verification of the `pymultifracs` estimation core
(`structurefunction.py`, `mfspectrum.py`) against its design spec.

The two estimator files are embedded shallowly: numpy arrays of floats
become `List ℝ`, the per-scale dictionaries of a multi-resolution
quantity become functions `ℕ → List ℝ` / `ℕ → ℕ` together with the
ordered key list, and the loops of `_compute` / `_compute_zeta` become
`List.map` / `mapExcept`.  The helpers `fast_power`, `linear_regression`
and `MultiResolutionQuantity.get_nj_interv` live in `utils.py` and
`multiresquantity.py`, which are not part of the sources at hand; they
are modelled from the spec (their doc comments say so explicitly).
-/

noncomputable section

/-- The error kinds named by the spec's error-handling design (§7), plus
`typeError`, the Python `TypeError` raised when a call supplies the wrong
number of arguments. -/
inductive SpecError where
  | invalidWindow
  | degenerateRegression
  | zeroMass
  | emptyScale
  | typeError
  deriving DecidableEq

/-- Embedding of the external `MultiResolutionQuantity` interface
(`multiresquantity.py`): `scales` is the ordered key list of the
`values` dictionary (the source's `list(mrq.values)`), `values j` the
coefficient array at scale `j`, `nj j` the coefficient count at scale
`j`, and `name` the signal name. -/
structure MultiResolutionQuantity where
  name : String
  scales : List ℕ
  values : ℕ → List ℝ
  nj : ℕ → ℕ

/-- Modelled from the spec: `MultiResolutionQuantity.get_nj_interv`
(`multiresquantity.py`, not under the sources at hand).  Spec §6:
`weight_over_interval(j1, j2)` returns, for each `j` in `[j1, j2]`, the
per-scale count, a sequence of length `j2 - j1 + 1`. -/
def MultiResolutionQuantity.get_nj_interv (mrq : MultiResolutionQuantity)
    (j1 j2 : ℕ) : List ℝ :=
  (List.range' j1 (j2 + 1 - j1)).map (fun j => (mrq.nj j : ℝ))

/-- Modelled from the spec: `fast_power` from `utils.py` (not under the
sources at hand).  Spec §4.1: element-wise real power `x_i ^ q` with the
conventions `0 ^ 0 = 1` and `0 ^ q = 0` for `q ≠ 0`; `Real.rpow` on
non-negative bases implements exactly these three cases. -/
def fast_power (x : List ℝ) (q : ℝ) : List ℝ :=
  x.map (fun v => v ^ q)

/-- `np.mean` on a one-dimensional array. -/
def mean (xs : List ℝ) : ℝ := xs.sum / (xs.length : ℝ)

/-- `np.log2`. -/
def log2 (x : ℝ) : ℝ := Real.logb 2 x

/-- Effectful loop: the Python `for` loops that run one fallible
computation per element and collect the results. -/
def mapExcept {α β : Type} (f : α → Except SpecError β) :
    List α → Except SpecError (List β)
  | [] => .ok []
  | a :: l => do
      let b ← f a
      let bs ← mapExcept f l
      pure (b :: bs)

/-- Modelled from the spec: `linear_regression` from `utils.py` (not
under the sources at hand).  Spec §4.2: weighted least squares via the
closed form `slope = Σ w (x - x̄)(y - ȳ) / Σ w (x - x̄)²`,
`intercept = ȳ - slope·x̄`, with weighted means `x̄`, `ȳ`; the
degenerate zero-variance case fails (NumericalError), here
`degenerateRegression`. -/
def linear_regression (x y w : List ℝ) : Except SpecError (ℝ × ℝ) :=
  let W := w.sum
  let xbar := (List.zipWith (fun wi xi => wi * xi) w x).sum / W
  let ybar := (List.zipWith (fun wi yi => wi * yi) w y).sum / W
  let sxx := (List.zipWith (fun wi xi => wi * (xi - xbar) ^ 2) w x).sum
  let sxy := (List.zipWith (fun wi p => wi * (p.1 - xbar) * (p.2 - ybar))
    w (x.zip y)).sum
  if sxx = 0 then .error .degenerateRegression
  else .ok (sxy / sxx, ybar - (sxy / sxx) * xbar)

/-- `np.arange(j1, j2 + 1)`, the regression abscissa. -/
def xvec (j1 j2 : ℕ) : List ℝ :=
  (List.range' j1 (j2 + 1 - j1)).map (fun j => (j : ℝ))

/-- The regression weights of `_compute_zeta` / `MFS._compute`:
`mrq.get_nj_interv(j1, j2)` when `wtype`, else `np.ones(len(x))`. -/
def wvec (mrq : MultiResolutionQuantity) (j1 j2 : ℕ) (wtype : Bool) :
    List ℝ :=
  if wtype then mrq.get_nj_interv j1 j2
  else List.replicate (j2 + 1 - j1) 1

/-- The Python slice `a[(j1-1):j2]` (0-based positions `j1-1 .. j2-1`). -/
def winSlice {α : Type} (j1 j2 : ℕ) (l : List α) : List α :=
  (l.drop (j1 - 1)).take (j2 + 1 - j1)

/-- One row of the structure-function matrix: for a fixed exponent `qq`,
`mean(fast_power(np.abs(c_j), qq))` for every scale `j` of the quantity
(`_compute`, inner loop body). -/
def SF_row (mrq : MultiResolutionQuantity) (qq : ℝ) : List ℝ :=
  mrq.scales.map (fun j => mean (fast_power ((mrq.values j).map abs) qq))

/-- The local `values` matrix of `StructureFunction._compute`, row
`ind_q`, column `ind_j`. -/
def SF_values (mrq : MultiResolutionQuantity) (q : List ℝ) :
    List (List ℝ) :=
  q.map (fun qq => SF_row mrq qq)

/-- `self.logvalues = np.log2(values)` (`_compute`, last line). -/
def SF_logvalues (mrq : MultiResolutionQuantity) (q : List ℝ) :
    List (List ℝ) :=
  (SF_values mrq q).map (fun row => row.map log2)

/-- `StructureFunction._compute_zeta`: per exponent, regress the window
slice of the `logvalues` row on `x = arange(j1, j2+1)` with weights
`nj` (counts if `wtype` else ones); collect slopes and intercepts. -/
def SF_compute_zeta (mrq : MultiResolutionQuantity) (j1 j2 : ℕ)
    (wtype : Bool) (logvalues : List (List ℝ)) :
    Except SpecError (List ℝ × List ℝ) :=
  (mapExcept (fun row =>
      linear_regression (xvec j1 j2) (winSlice j1 j2 row)
        (wvec mrq j1 j2 wtype)) logvalues).map
    (fun ps => (ps.map Prod.fst, ps.map Prod.snd))

/-- The `StructureFunction` object.  Fields are the attributes the
dataclass declares; `values` is declared `field(init=False)` in the
source but `_compute` never assigns `self.values` (the matrix stays a
local variable), so the attribute is absent on every constructed object:
it is modelled as an `Option` that construction leaves at `none`. -/
structure StructureFunction where
  name : String
  q : List ℝ
  j1 : ℕ
  j2 : ℕ
  wtype : Bool
  j : List ℕ
  values : Option (List (List ℝ))
  logvalues : List (List ℝ)
  zeta : List ℝ
  intercept : List ℝ

/-- `StructureFunction` construction: the dataclass `__init__` stores
`q, j1, j2, wtype` and calls `__post_init__(self, mrq)` (its one
`InitVar`), which sets `name`, `j = list(mrq.values)` and runs
`_compute` then `_compute_zeta`. -/
def StructureFunction.construct (mrq : MultiResolutionQuantity)
    (q : List ℝ) (j1 j2 : ℕ) (wtype : Bool) :
    Except SpecError StructureFunction :=
  let lv := SF_logvalues mrq q
  (SF_compute_zeta mrq j1 j2 wtype lv).map (fun zi =>
    { name := mrq.name, q := q, j1 := j1, j2 := j2, wtype := wtype,
      j := mrq.scales, values := none, logvalues := lv,
      zeta := zi.1, intercept := zi.2 })

/-- `StructureFunction.get_H`: `H = self.zeta[self.q == 2]`, then
`H[0] / 2` if the selection is non-empty, else `None`. -/
def StructureFunction.get_H (sf : StructureFunction) : Option ℝ :=
  match (sf.q.zip sf.zeta).filter (fun p => decide (p.1 = (2 : ℝ))) with
  | [] => none
  | p :: _ => some (p.2 / 2)

/-- The slope the code computes for one exponent `qq`: regression of the
window slice of the `logvalues` row belonging to `qq`.  Used to state
what "zeta evaluated at q = 2" means independently of the position of
`2` in the exponent list. -/
def SF_zeta_at (mrq : MultiResolutionQuantity) (j1 j2 : ℕ)
    (wtype : Bool) (qq : ℝ) : Except SpecError ℝ :=
  (linear_regression (xvec j1 j2)
      (winSlice j1 j2 ((SF_row mrq qq).map log2))
      (wvec mrq j1 j2 wtype)).map Prod.fst

/-- One entry of the `V` matrix of `MultifractalSpectrum._compute`:
with `m = np.abs(mrq.values[j])` and `t = fast_power(m, qq)`,
`R = t / t.sum()` and `V = (R * np.log2(m)).sum()`. -/
def MFS_V_entry (m : List ℝ) (qq : ℝ) : ℝ :=
  let t := fast_power m qq
  let R := t.map (fun ti => ti / t.sum)
  (List.zipWith (fun Ri mi => Ri * log2 mi) R m).sum

/-- One entry of the `U` matrix of `MultifractalSpectrum._compute`:
`U = np.log2(nj) + (R * np.log2(R)).sum()`. -/
def MFS_U_entry (n : ℕ) (m : List ℝ) (qq : ℝ) : ℝ :=
  let t := fast_power m qq
  let R := t.map (fun ti => ti / t.sum)
  log2 (n : ℝ) + (R.map (fun Ri => Ri * log2 Ri)).sum

/-- The `U` matrix (rows indexed by scale position, columns by exponent
position), as filled by the loop of `MultifractalSpectrum._compute`. -/
def MFS_U (mrq : MultiResolutionQuantity) (q : List ℝ) :
    List (List ℝ) :=
  mrq.scales.map (fun j =>
    q.map (fun qq => MFS_U_entry (mrq.nj j) ((mrq.values j).map abs) qq))

/-- The `V` matrix, as filled by the loop of
`MultifractalSpectrum._compute`. -/
def MFS_V (mrq : MultiResolutionQuantity) (q : List ℝ) :
    List (List ℝ) :=
  mrq.scales.map (fun j =>
    q.map (fun qq => MFS_V_entry ((mrq.values j).map abs) qq))

/-- Column `iq` of the window slice `M[(j1-1):j2, iq]` of a matrix
stored as a list of rows. -/
def winColumn (j1 j2 iq : ℕ) (M : List (List ℝ)) : List ℝ :=
  (winSlice j1 j2 M).map (fun row => row.getD iq 0)

/-- The regression half of `MultifractalSpectrum._compute`: per exponent
position, regress `U[(j1-1):j2, ind_q]` and `V[(j1-1):j2, ind_q]` on
`x = arange(j1, j2+1)` with weights `wj`, returning
`(Dq, hq) = (1 + slope₁, slope₂)` collected over the exponents. -/
def MFS_compute (mrq : MultiResolutionQuantity) (q : List ℝ)
    (j1 j2 : ℕ) (wtype : Bool) : Except SpecError (List ℝ × List ℝ) :=
  let U := MFS_U mrq q
  let V := MFS_V mrq q
  (mapExcept (fun iq => do
      let p1 ← linear_regression (xvec j1 j2) (winColumn j1 j2 iq U)
        (wvec mrq j1 j2 wtype)
      let p2 ← linear_regression (xvec j1 j2) (winColumn j1 j2 iq V)
        (wvec mrq j1 j2 wtype)
      pure (1 + p1.1, p2.1)) (List.range q.length)).map
    (fun ps => (ps.map Prod.fst, ps.map Prod.snd))

/-- The `MultifractalSpectrum` object (attributes the dataclass
declares and `__post_init__`/`_compute` would assign). -/
structure MultifractalSpectrum where
  name : String
  nj : ℕ → ℕ
  q : List ℝ
  j1 : ℕ
  j2 : ℕ
  wtype : Bool
  j : List ℕ
  U : List (List ℝ)
  V : List (List ℝ)
  Dq : List ℝ
  hq : List ℝ

/-- The number of `InitVar` arguments the dataclass-generated
`__init__` of `MultifractalSpectrum` passes to `__post_init__`: only
`mrq` is declared `InitVar`. -/
def MFS_initvar_count : ℕ := 1

/-- The number of required parameters besides `self` in the declared
signature `def __post_init__(self, mrq, j1, j2, wtype)`. -/
def MFS_post_init_arity : ℕ := 4

/-- `MultifractalSpectrum` construction: the generated `__init__`
stores the declared fields and then calls `__post_init__` with the
`InitVar` arguments.  Python raises `TypeError` when the number of
arguments supplied does not match the arity of the declared signature;
only on a match would the body (`_compute`) run. -/
def MultifractalSpectrum.construct (mrq : MultiResolutionQuantity)
    (q : List ℝ) (j1 j2 : ℕ) (wtype : Bool) :
    Except SpecError MultifractalSpectrum :=
  if MFS_initvar_count = MFS_post_init_arity then
    (MFS_compute mrq q j1 j2 wtype).map (fun dh =>
      { name := mrq.name, nj := mrq.nj, q := q, j1 := j1, j2 := j2,
        wtype := wtype, j := mrq.scales, U := MFS_U mrq q,
        V := MFS_V mrq q, Dq := dh.1, hq := dh.2 })
  else .error .typeError

/-- Statement-by-statement translation of
`StructureFunction.__post_init__` that threads the state of the
supplied `mrq` through every step.  Each source statement either reads
an attribute of `mrq` (`mrq.name`, `mrq.values`, `mrq.get_nj_interv`)
or assigns an attribute of `self`; no statement writes to `mrq`, so
every step passes the `mrq` component along unchanged, and the final
state of the quantity is returned next to the constructed object. -/
def StructureFunction.construct_frame (mrq : MultiResolutionQuantity)
    (q : List ℝ) (j1 j2 : ℕ) (wtype : Bool) :
    Except SpecError (StructureFunction × MultiResolutionQuantity) :=
  let s0 := mrq
  let (name, s1) := (s0.name, s0)
  let (jlist, s2) := (s1.scales, s1)
  let (lv, s3) := (SF_logvalues s2 q, s2)
  (SF_compute_zeta s3 j1 j2 wtype lv).map (fun zi =>
    ({ name := name, q := q, j1 := j1, j2 := j2, wtype := wtype,
       j := jlist, values := none, logvalues := lv,
       zeta := zi.1, intercept := zi.2 }, s3))

lemma except_bind_error {ε α β : Type} (e : ε) (g : α → Except ε β) :
    (Except.error e).bind g = Except.error e := rfl

lemma except_bind_ok {ε α β : Type} (a : α) (g : α → Except ε β) :
    (Except.ok (ε := ε) a).bind g = g a := rfl

lemma except_map_error {ε α β : Type} (e : ε) (g : α → β) :
    (Except.error e).map g = Except.error (α := β) e := rfl

lemma except_map_ok {ε α β : Type} (a : α) (g : α → β) :
    (Except.ok (ε := ε) a).map g = Except.ok (g a) := rfl

lemma mapExcept_ok_length {α β : Type} {f : α → Except SpecError β}
    {l : List α} {r : List β} (h : mapExcept f l = .ok r) :
    r.length = l.length := by
  induction l generalizing r with
  | nil => simp [mapExcept] at h; simp [← h]
  | cons a t ih =>
    simp only [mapExcept, bind, pure] at h
    cases hfa : f a with
    | error e => rw [hfa, except_bind_error] at h; exact absurd h (by simp)
    | ok b =>
      rw [hfa, except_bind_ok] at h
      cases hft : mapExcept f t with
      | error e => rw [hft, except_bind_error] at h; exact absurd h (by simp)
      | ok bs =>
        rw [hft, except_bind_ok] at h
        simp only [Except.pure, Except.ok.injEq] at h
        subst h
        simp [ih hft]

lemma mapExcept_ok_getD {α β : Type} {f : α → Except SpecError β}
    {l : List α} {r : List β} (h : mapExcept f l = .ok r)
    (dα : α) (dβ : β) :
    ∀ i, i < l.length → f (l.getD i dα) = .ok (r.getD i dβ) := by
  induction l generalizing r with
  | nil => intro i hi; simp at hi
  | cons a t ih =>
    intro i hi
    simp only [mapExcept, bind, pure] at h
    cases hfa : f a with
    | error e => rw [hfa, except_bind_error] at h; exact absurd h (by simp)
    | ok b =>
      rw [hfa, except_bind_ok] at h
      cases hft : mapExcept f t with
      | error e => rw [hft, except_bind_error] at h; exact absurd h (by simp)
      | ok bs =>
        rw [hft, except_bind_ok] at h
        simp only [Except.pure, Except.ok.injEq] at h
        subst h
        cases i with
        | zero => simpa using hfa
        | succ n =>
          simp only [List.getD_cons_succ]
          exact ih hft n (by simpa using hi)

lemma mapExcept_congr {α β : Type} {f g : α → Except SpecError β}
    {l : List α} (h : ∀ a ∈ l, f a = g a) :
    mapExcept f l = mapExcept g l := by
  induction l with
  | nil => rfl
  | cons a t ih =>
    simp only [mapExcept]
    rw [h a (by simp), ih (fun x hx => h x (by simp [hx]))]

lemma mapExcept_map {α β γ : Type} (f : β → Except SpecError γ)
    (g : α → β) (l : List α) :
    mapExcept f (l.map g) = mapExcept (fun a => f (g a)) l := by
  induction l with
  | nil => rfl
  | cons a t ih => simp only [List.map_cons, mapExcept, ih]

lemma winSlice_eq_map_range' {α : Type} (d : α) (l : List α)
    (j1 j2 : ℕ) (h1 : 1 ≤ j1) (h2 : j2 ≤ l.length) :
    winSlice j1 j2 l =
      (List.range' j1 (j2 + 1 - j1)).map (fun j => l.getD (j - 1) d) := by
  apply List.ext_getElem
  · simp [winSlice]; omega
  · intro i ha hb
    have hi : i < j2 + 1 - j1 := by
      simp [winSlice] at ha; omega
    have hlt : j1 - 1 + i < l.length := by omega
    rw [List.getElem_map, List.getElem_range']
    have h1i : j1 + 1 * i - 1 < l.length := by omega
    rw [List.getD_eq_getElem _ _ h1i]
    simp only [winSlice]
    rw [List.getElem_take, List.getElem_drop]
    congr 1
    omega

lemma getD_map_of_lt {α β : Type} (g : α → β) (l : List α) (i : ℕ)
    (hi : i < l.length) (d : α) (d' : β) :
    (l.map g).getD i d' = g (l.getD i d) := by
  rw [List.getD_eq_getElem _ _ (by simpa using hi),
    List.getD_eq_getElem _ _ hi, List.getElem_map]

lemma getD_range' (s n i : ℕ) (hi : i < n) (d : ℕ) :
    (List.range' s n).getD i d = s + i := by
  rw [List.getD_eq_getElem _ _ (by simpa using hi)]
  simp [List.getElem_range']

/-- The regression the code runs for the exponent `qq`. -/
def SF_fit (mrq : MultiResolutionQuantity) (j1 j2 : ℕ) (wtype : Bool)
    (qq : ℝ) : Except SpecError (ℝ × ℝ) :=
  linear_regression (xvec j1 j2)
    (winSlice j1 j2 ((SF_row mrq qq).map log2)) (wvec mrq j1 j2 wtype)

lemma SF_logvalues_eq_map (mrq : MultiResolutionQuantity) (q : List ℝ) :
    SF_logvalues mrq q = q.map (fun qq => (SF_row mrq qq).map log2) := by
  simp [SF_logvalues, SF_values]

lemma construct_ok_elim {mrq : MultiResolutionQuantity} {q : List ℝ}
    {j1 j2 : ℕ} {wtype : Bool} {sf : StructureFunction}
    (hok : StructureFunction.construct mrq q j1 j2 wtype = .ok sf) :
    ∃ ps : List (ℝ × ℝ),
      mapExcept (fun qq => SF_fit mrq j1 j2 wtype qq) q = .ok ps ∧
      sf = { name := mrq.name, q := q, j1 := j1, j2 := j2,
             wtype := wtype, j := mrq.scales, values := none,
             logvalues := SF_logvalues mrq q,
             zeta := ps.map Prod.fst, intercept := ps.map Prod.snd } := by
  simp only [StructureFunction.construct, SF_compute_zeta] at hok
  rw [SF_logvalues_eq_map, mapExcept_map] at hok
  cases hm : mapExcept
      (fun qq => linear_regression (xvec j1 j2)
        (winSlice j1 j2 ((SF_row mrq qq).map log2))
        (wvec mrq j1 j2 wtype)) q with
  | error e =>
    rw [hm, except_map_error, except_map_error] at hok
    exact absurd hok (by simp)
  | ok ps =>
    rw [hm, except_map_ok, except_map_ok] at hok
    refine ⟨ps, by simpa [SF_fit] using hm, ?_⟩
    simp only [Except.ok.injEq] at hok
    rw [← hok, SF_logvalues_eq_map]

lemma winSlice_scales_map {β : Type} (g : ℕ → β) (d : β)
    (j1 j2 J : ℕ) (h1 : 1 ≤ j1) (h2 : j2 ≤ J) :
    winSlice j1 j2 ((List.range' 1 J).map g) =
      (List.range' j1 (j2 + 1 - j1)).map g := by
  rw [winSlice_eq_map_range' d _ j1 j2 h1 (by simpa using h2)]
  apply List.map_congr_left
  intro j hj
  obtain ⟨hj1, hj2⟩ := List.mem_range'_1.mp hj
  have hlt : j - 1 < J := by omega
  rw [getD_map_of_lt g _ _ (by simpa using hlt) 0 d,
    getD_range' 1 J (j - 1) hlt 0]
  congr 1
  omega

lemma SF_logrow_eq (mrq : MultiResolutionQuantity) (qq : ℝ) :
    (SF_row mrq qq).map log2 =
      mrq.scales.map
        (fun j => log2 (mean (fast_power ((mrq.values j).map abs) qq))) := by
  simp [SF_row]

/-- C2: for every constructed `StructureFunction` (over contiguous
scales `1..J` with the window inside them), `zeta[q_i]` and
`intercept[q_i]` are exactly the slope and intercept of the weighted
linear regression of `y = logvalues[q_i, j1..j2]` against
`x = (j1, ..., j2)`, with the per-scale counts over `[j1, j2]` as
weights when the weighting flag is set and all ones otherwise. -/
theorem c2_zeta_intercept_regression
    (mrq : MultiResolutionQuantity) (q : List ℝ) (J j1 j2 : ℕ)
    (wtype : Bool) (sf : StructureFunction) (iq : ℕ)
    (hscales : mrq.scales = List.range' 1 J)
    (h1 : 1 ≤ j1) (h12 : j1 ≤ j2) (h2J : j2 ≤ J)
    (hok : StructureFunction.construct mrq q j1 j2 wtype = .ok sf)
    (hiq : iq < q.length) :
    linear_regression
      ((List.range' j1 (j2 + 1 - j1)).map (fun j => (j : ℝ)))
      ((List.range' j1 (j2 + 1 - j1)).map (fun j =>
        log2 (mean (fast_power ((mrq.values j).map abs) (q.getD iq 0)))))
      (if wtype then
        (List.range' j1 (j2 + 1 - j1)).map (fun j => (mrq.nj j : ℝ))
      else List.replicate (j2 + 1 - j1) 1) =
      .ok (sf.zeta.getD iq 0, sf.intercept.getD iq 0) := by
  obtain ⟨ps, hm, hsf⟩ := construct_ok_elim hok
  have hlen : ps.length = q.length := mapExcept_ok_length hm
  have hfit := mapExcept_ok_getD hm 0 (0, 0) iq hiq
  have hy : winSlice j1 j2 ((SF_row mrq (q.getD iq 0)).map log2) =
      (List.range' j1 (j2 + 1 - j1)).map (fun j =>
        log2 (mean (fast_power ((mrq.values j).map abs) (q.getD iq 0)))) := by
    rw [SF_logrow_eq, hscales, winSlice_scales_map _ (0 : ℝ) j1 j2 J h1 h2J]
  have hw : wvec mrq j1 j2 wtype =
      (if wtype then
        (List.range' j1 (j2 + 1 - j1)).map (fun j => (mrq.nj j : ℝ))
      else List.replicate (j2 + 1 - j1) 1) := by
    simp [wvec, MultiResolutionQuantity.get_nj_interv]
  have hx : xvec j1 j2 =
      (List.range' j1 (j2 + 1 - j1)).map (fun j => (j : ℝ)) := rfl
  have hz : sf.zeta.getD iq 0 = (ps.getD iq (0, 0)).1 := by
    rw [hsf]
    exact getD_map_of_lt Prod.fst ps iq (by omega) (0, 0) 0
  have hi2 : sf.intercept.getD iq 0 = (ps.getD iq (0, 0)).2 := by
    rw [hsf]
    exact getD_map_of_lt Prod.snd ps iq (by omega) (0, 0) 0
  rw [← hx, ← hy, ← hw, hz, hi2]
  simpa [SF_fit] using hfit

/-- A concrete two-scale quantity: one coefficient `1.0` at each scale,
counts `1`. -/
def exMrqA : MultiResolutionQuantity :=
  { name := "toy", scales := [1, 2], values := fun _ => [1],
    nj := fun _ => 1 }

/-- The object `StructureFunction(exMrqA, q=[0], j1=1, j2=2,
wtype=False)` evaluates to. -/
def sfA : StructureFunction :=
  { name := "toy", q := [0], j1 := 1, j2 := 2, wtype := false,
    j := [1, 2], values := none, logvalues := [[0, 0]],
    zeta := [0], intercept := [0] }

lemma construct_exMrqA_ok :
    StructureFunction.construct exMrqA [0] 1 2 false = .ok sfA := by
  norm_num [StructureFunction.construct, SF_compute_zeta, SF_logvalues,
    SF_values, SF_row, fast_power, mean, log2, mapExcept, winSlice,
    xvec, wvec, linear_regression, exMrqA, sfA, List.range',
    Except.pure, List.replicate, Except.map, Except.bind, Bind.bind,
    Except.instMonad]

/-- C1: at the concrete quantity `exMrqA`, construction stores
`logvalues` equal to `log2` of the moment matrix
`mean(fast_power(|coefficients(j)|, q_i))`, with one column per scale
of the full quantity — but the declared `values` attribute itself is
never assigned by `_compute` (the matrix stays a local variable), so
the constructed object carries no `values` entry. -/
theorem c1_values_left_unassigned :
    (StructureFunction.construct exMrqA [0] 1 2 false).map
        (fun sf => (sf.values, sf.logvalues)) =
      .ok (none,
        [[log2 (mean (fast_power ((exMrqA.values 1).map abs) 0)),
          log2 (mean (fast_power ((exMrqA.values 2).map abs) 0))]]) := by
  rw [construct_exMrqA_ok, except_map_ok]
  norm_num [exMrqA, sfA, fast_power, mean, log2]

/-- Witness for C2 at `exMrqA`, `q = [0]`, window `[1, 2]`,
unweighted. -/
theorem c2_witness :
    linear_regression
      ((List.range' 1 (2 + 1 - 1)).map (fun j => (j : ℝ)))
      ((List.range' 1 (2 + 1 - 1)).map (fun j =>
        log2 (mean (fast_power ((exMrqA.values j).map abs)
          (([0] : List ℝ).getD 0 0)))))
      (if false then
        (List.range' 1 (2 + 1 - 1)).map (fun j => (exMrqA.nj j : ℝ))
      else List.replicate (2 + 1 - 1) 1) =
      .ok (sfA.zeta.getD 0 0, sfA.intercept.getD 0 0) :=
  c2_zeta_intercept_regression exMrqA [0] 2 1 2 false sfA 0 rfl
    (by norm_num) (by norm_num) (by norm_num) construct_exMrqA_ok
    (by norm_num)

/-- C4: constructing a `MultifractalSpectrum` raises `TypeError` for
every input and never yields a value: the dataclass-generated
`__init__` calls `__post_init__` with the single `InitVar` argument
`mrq`, but the declared signature of `__post_init__` requires the four
arguments `mrq, j1, j2, wtype`. -/
theorem c4_construction_always_type_error
    (mrq : MultiResolutionQuantity) (q : List ℝ) (j1 j2 : ℕ)
    (wtype : Bool) :
    MultifractalSpectrum.construct mrq q j1 j2 wtype =
      .error SpecError.typeError := by
  simp [MultifractalSpectrum.construct, MFS_initvar_count,
    MFS_post_init_arity]

/-- C5: the power primitive satisfies the boundary contract: at any
position of the array, `power(x, 0) = 1` (also at elements equal to
`0`, the `0^0 = 1` convention), `power(0, q) = 0` for `q ≠ 0`, and at
positive elements it is the standard real power `x_i ^ q`. -/
theorem c5_fast_power_boundary (x : List ℝ) (q : ℝ) (i : ℕ)
    (hi : i < x.length) :
    (fast_power x 0).getD i 0 = 1 ∧
    (q ≠ 0 → x.getD i 0 = 0 → (fast_power x q).getD i 0 = 0) ∧
    (0 < x.getD i 0 → (fast_power x q).getD i 0 = x.getD i 0 ^ q) := by
  refine ⟨?_, ?_, ?_⟩
  · rw [fast_power, getD_map_of_lt _ x i hi 0 0, Real.rpow_zero]
  · intro hq hx
    rw [fast_power, getD_map_of_lt _ x i hi 0 0, hx, Real.zero_rpow hq]
  · intro _
    rw [fast_power, getD_map_of_lt _ x i hi 0 0]

/-- Witness for C5 at `x = [0, 2]`, `q = 3`, position `0`. -/
theorem c5_witness :
    (fast_power [(0 : ℝ), 2] 0).getD 0 0 = 1 ∧
    ((3 : ℝ) ≠ 0 → ([(0 : ℝ), 2]).getD 0 0 = 0 →
      (fast_power [(0 : ℝ), 2] 3).getD 0 0 = 0) ∧
    (0 < ([(0 : ℝ), 2]).getD 0 0 →
      (fast_power [(0 : ℝ), 2] 3).getD 0 0 =
        ([(0 : ℝ), 2]).getD 0 0 ^ (3 : ℝ)) :=
  c5_fast_power_boundary [0, 2] 3 0 (by norm_num)

lemma linear_regression_single_x (x0 : ℝ) (y : List ℝ) (w0 : ℝ) :
    linear_regression [x0] y [w0] = .error .degenerateRegression := by
  by_cases hw : w0 = 0
  · simp [linear_regression, hw]
  · simp only [linear_regression]
    rw [if_pos]
    simp only [List.zipWith, List.sum_cons, List.sum_nil]
    rw [add_zero, add_zero, add_zero, mul_div_cancel_left₀ _ hw,
      sub_self]
    ring

/-- C6 (amended): construction with a one-point window `j1 = j2`
performs no window validation; with a nonempty exponent list the
single-point window reaches the weighted regression, whose x-variance
is zero, so construction surfaces the degenerate-regression failure of
the regression primitive — not `InvalidWindowError`. -/
theorem c6_amended_single_point_window
    (mrq : MultiResolutionQuantity) (q : List ℝ) (j1 : ℕ) (wtype : Bool)
    (hq : q ≠ []) :
    StructureFunction.construct mrq q j1 j1 wtype =
      .error SpecError.degenerateRegression := by
  obtain ⟨qq, qt, rfl⟩ := List.exists_cons_of_ne_nil hq
  simp only [StructureFunction.construct, SF_compute_zeta]
  rw [SF_logvalues_eq_map, mapExcept_map]
  have hx : xvec j1 j1 = [(j1 : ℝ)] := by
    have h1 : j1 + 1 - j1 = 1 := by omega
    simp [xvec, h1]
  have hw : ∃ w0, wvec mrq j1 j1 wtype = [w0] := by
    have h1 : j1 + 1 - j1 = 1 := by omega
    cases wtype
    · exact ⟨1, by simp [wvec, h1]⟩
    · exact ⟨(mrq.nj j1 : ℝ),
        by simp [wvec, MultiResolutionQuantity.get_nj_interv, h1]⟩
  obtain ⟨w0, hw⟩ := hw
  simp only [mapExcept, bind]
  rw [hx, hw, linear_regression_single_x, except_bind_error,
    except_map_error, except_map_error]

/-- Counterexample for C6 as stated: at a concrete quantity with
`j1 = j2 = 1` the construction does not raise `InvalidWindowError`
(it fails with the degenerate-regression error instead). -/
theorem c6_counterexample_not_invalid_window :
    StructureFunction.construct exMrqA [0] 1 1 false =
      .error SpecError.degenerateRegression ∧
    StructureFunction.construct exMrqA [0] 1 1 false ≠
      .error SpecError.invalidWindow := by
  have h : StructureFunction.construct exMrqA [0] 1 1 false =
      .error SpecError.degenerateRegression := by
    norm_num [StructureFunction.construct, SF_compute_zeta,
      SF_logvalues, SF_values, SF_row, fast_power, mean, log2,
      mapExcept, winSlice, xvec, wvec, linear_regression, exMrqA,
      List.range', Except.pure, List.replicate, Except.map,
      Except.bind, Bind.bind, Except.instMonad]
  exact ⟨h, by rw [h]; simp⟩

/-- Witness for the amended C6 at `exMrqA`, `q = [0]`, window
`[2, 2]`, weighted. -/
theorem c6_witness :
    StructureFunction.construct exMrqA [0] 2 2 true =
      .error SpecError.degenerateRegression :=
  c6_amended_single_point_window exMrqA [0] 2 true (by simp)

/-- A concrete quantity whose scale `1` has an all-zero coefficient
array. -/
def exMrqZ : MultiResolutionQuantity :=
  { name := "z", scales := [1, 2],
    values := fun j => if j = 1 then [0] else [1], nj := fun _ => 1 }

/-- The object `StructureFunction(exMrqZ, q=[1], j1=1, j2=2,
wtype=False)` evaluates to (in the real-number embedding `log2 0`
denotes the junk value `0`; the floating-point code stores `-inf`
there). -/
def sfZ : StructureFunction :=
  { name := "z", q := [1], j1 := 1, j2 := 2, wtype := false,
    j := [1, 2], values := none, logvalues := [[0, 0]],
    zeta := [0], intercept := [0] }

lemma construct_exMrqZ_ok :
    StructureFunction.construct exMrqZ [1] 1 2 false = .ok sfZ := by
  norm_num [StructureFunction.construct, SF_compute_zeta, SF_logvalues,
    SF_values, SF_row, fast_power, mean, log2, mapExcept, winSlice,
    xvec, wvec, linear_regression, exMrqZ, sfZ, List.range',
    Except.pure, List.replicate, Except.map, Except.bind, Bind.bind,
    Except.instMonad, Real.logb_zero, Real.rpow_one]

/-- Counterexample for C7 as stated: with scale `1` all-zero inside the
window and `q = [1]`, construction raises neither `ZeroMassError` nor
`EmptyScaleError`; it completes and returns a populated estimator. -/
theorem c7_counterexample_no_error_raised :
    StructureFunction.construct exMrqZ [1] 1 2 false = .ok sfZ ∧
    StructureFunction.construct exMrqZ [1] 1 2 false ≠
      .error SpecError.zeroMass ∧
    StructureFunction.construct exMrqZ [1] 1 2 false ≠
      .error SpecError.emptyScale :=
  ⟨construct_exMrqZ_ok, by rw [construct_exMrqZ_ok]; simp,
    by rw [construct_exMrqZ_ok]; simp⟩

/-- C7 (amended): no zero-mass check exists; at the same input the
structure function of the all-zero scale is exactly `0`, its `log2` is
passed straight into `logvalues` (`-inf` in the floating-point code, a
junk value in this real-number embedding), and construction still
succeeds. -/
theorem c7_amended_zero_scale_flows_through :
    mean (fast_power ((exMrqZ.values 1).map abs) 1) = 0 ∧
    (StructureFunction.construct exMrqZ [1] 1 2 false).isOk = true := by
  constructor
  · norm_num [exMrqZ, fast_power, mean]
  · rw [construct_exMrqZ_ok]
    rfl

/-- The pure-list computation inside `get_H`. -/
def getH_list (q z : List ℝ) : Option ℝ :=
  match (q.zip z).filter (fun p => decide (p.1 = (2 : ℝ))) with
  | [] => none
  | p :: _ => some (p.2 / 2)

lemma getH_list_core : ∀ (q z : List ℝ) (c : ℝ),
    z.length = q.length →
    (∀ i, i < q.length → q.getD i 0 = 2 → z.getD i 0 = c) →
    ((getH_list q z = none ↔ (2 : ℝ) ∉ q) ∧
     ((2 : ℝ) ∈ q → getH_list q z = some (c / 2))) := by
  intro q
  induction q with
  | nil => intro z c _ _; simp [getH_list]
  | cons qq qt ih =>
    intro z c hlen hz
    cases z with
    | nil => simp at hlen
    | cons zz zt =>
      by_cases hqq : qq = (2 : ℝ)
      · subst hqq
        have hzz : zz = c := hz 0 (by simp) (by simp)
        subst hzz
        constructor
        · simp [getH_list]
        · intro _
          simp [getH_list]
      · have hih := ih zt c (by simpa using hlen)
          (fun i hi h2 => hz (i + 1) (by simpa using hi) (by simpa using h2))
        have hstep : getH_list (qq :: qt) (zz :: zt) = getH_list qt zt := by
          simp [getH_list, List.filter_cons, hqq]
        constructor
        · rw [hstep, hih.1]
          simp [List.mem_cons, Ne.symm hqq]
        · intro h2
          have hmem : (2 : ℝ) ∈ qt := by
            rcases List.mem_cons.mp h2 with h | h
            · exact absurd h.symm hqq
            · exact h
          rw [hstep]
          exact hih.2 hmem

lemma SF_zeta_at_eq_fit (mrq : MultiResolutionQuantity) (j1 j2 : ℕ)
    (wtype : Bool) (qq : ℝ) :
    SF_zeta_at mrq j1 j2 wtype qq =
      (SF_fit mrq j1 j2 wtype qq).map Prod.fst := rfl

/-- C8: for every constructed `StructureFunction`, `get_H()` returns
`None` exactly when `2` is not in the configured exponent sequence, and
otherwise returns zeta evaluated at `q = 2` (the regression slope the
code computes for the exponent `2`), divided by `2`. -/
theorem c8_get_H_spec
    (mrq : MultiResolutionQuantity) (q : List ℝ) (j1 j2 : ℕ)
    (wtype : Bool) (sf : StructureFunction)
    (hok : StructureFunction.construct mrq q j1 j2 wtype = .ok sf) :
    (sf.get_H = none ↔ (2 : ℝ) ∉ sf.q) ∧
    ((2 : ℝ) ∈ sf.q →
      sf.get_H = (SF_zeta_at mrq j1 j2 wtype 2).toOption.map
        (fun s => s / 2)) := by
  obtain ⟨ps, hm, hsf⟩ := construct_ok_elim hok
  have hlen : ps.length = q.length := mapExcept_ok_length hm
  subst hsf
  have hgh : StructureFunction.get_H
      { name := mrq.name, q := q, j1 := j1, j2 := j2, wtype := wtype,
        j := mrq.scales, values := none,
        logvalues := SF_logvalues mrq q, zeta := ps.map Prod.fst,
        intercept := ps.map Prod.snd } =
      getH_list q (ps.map Prod.fst) := rfl
  have hzlen : (ps.map Prod.fst).length = q.length := by
    simpa using hlen
  by_cases hmem : (2 : ℝ) ∈ q
  · obtain ⟨i0, hi0, hq2⟩ : ∃ i, i < q.length ∧ q.getD i 0 = 2 := by
      obtain ⟨i, hi, hqi⟩ := List.getElem_of_mem hmem
      exact ⟨i, hi, by rw [List.getD_eq_getElem _ _ hi, hqi]⟩
    have hfit0 := mapExcept_ok_getD hm 0 (0, 0) i0 hi0
    rw [hq2] at hfit0
    have hz : ∀ i, i < q.length → q.getD i 0 = 2 →
        (ps.map Prod.fst).getD i 0 = (ps.getD i0 (0, 0)).1 := by
      intro i hi hqi
      have hfit := mapExcept_ok_getD hm 0 (0, 0) i hi
      rw [hqi, hfit0] at hfit
      have heq : ps.getD i0 (0, 0) = ps.getD i (0, 0) := by
        simpa using hfit
      rw [getD_map_of_lt Prod.fst ps i (by omega) (0, 0) 0, ← heq]
    have hcore := getH_list_core q (ps.map Prod.fst)
      ((ps.getD i0 (0, 0)).1) hzlen hz
    refine ⟨by rw [hgh]; exact hcore.1, fun _ => ?_⟩
    rw [hgh, hcore.2 hmem, SF_zeta_at_eq_fit, hfit0, except_map_ok]
    rfl
  · have hz : ∀ i, i < q.length → q.getD i 0 = 2 →
        (ps.map Prod.fst).getD i 0 = 0 := by
      intro i hi hqi
      exact absurd (by
        rw [List.getD_eq_getElem _ _ hi] at hqi
        exact hqi ▸ List.getElem_mem hi) hmem
    have hcore := getH_list_core q (ps.map Prod.fst) 0 hzlen hz
    exact ⟨by rw [hgh]; exact hcore.1, fun h => absurd h hmem⟩

/-- The object `StructureFunction(exMrqA, q=[2], j1=1, j2=2,
wtype=False)` evaluates to. -/
def sfA2 : StructureFunction :=
  { name := "toy", q := [2], j1 := 1, j2 := 2, wtype := false,
    j := [1, 2], values := none, logvalues := [[0, 0]],
    zeta := [0], intercept := [0] }

lemma construct_exMrqA2_ok :
    StructureFunction.construct exMrqA [2] 1 2 false = .ok sfA2 := by
  norm_num [StructureFunction.construct, SF_compute_zeta, SF_logvalues,
    SF_values, SF_row, fast_power, mean, log2, mapExcept, winSlice,
    xvec, wvec, linear_regression, exMrqA, sfA2, List.range',
    Except.pure, List.replicate, Except.map, Except.bind, Bind.bind,
    Except.instMonad, Real.one_rpow]

/-- Witness for C8 at `exMrqA`, `q = [2]`, window `[1, 2]`,
unweighted. -/
theorem c8_witness :
    (sfA2.get_H = none ↔ (2 : ℝ) ∉ sfA2.q) ∧
    ((2 : ℝ) ∈ sfA2.q →
      sfA2.get_H = (SF_zeta_at exMrqA 1 2 false 2).toOption.map
        (fun s => s / 2)) :=
  c8_get_H_spec exMrqA [2] 1 2 false sfA2 construct_exMrqA2_ok

lemma except_map_eq_ok {ε α β : Type} {e : Except ε α} {f : α → β}
    {b : β} (h : e.map f = .ok b) : ∃ a, e = .ok a ∧ b = f a := by
  cases e with
  | error e => rw [except_map_error] at h; exact absurd h (by simp)
  | ok a =>
    rw [except_map_ok] at h
    exact ⟨a, rfl, by simpa using h.symm⟩

lemma getD_range (n i : ℕ) (hi : i < n) (d : ℕ) :
    (List.range n).getD i d = i := by
  rw [List.getD_eq_getElem _ _ (by simpa using hi)]
  simp

/-- The pair of regressions `MFS._compute` runs for exponent position
`iq`. -/
def MFS_fit (mrq : MultiResolutionQuantity) (q : List ℝ)
    (j1 j2 : ℕ) (wtype : Bool) (iq : ℕ) :
    Except SpecError (ℝ × ℝ) := do
  let p1 ← linear_regression (xvec j1 j2)
    (winColumn j1 j2 iq (MFS_U mrq q)) (wvec mrq j1 j2 wtype)
  let p2 ← linear_regression (xvec j1 j2)
    (winColumn j1 j2 iq (MFS_V mrq q)) (wvec mrq j1 j2 wtype)
  pure (1 + p1.1, p2.1)

lemma MFS_compute_ok_elim {mrq : MultiResolutionQuantity} {q : List ℝ}
    {j1 j2 : ℕ} {wtype : Bool} {Dq hq : List ℝ}
    (hok : MFS_compute mrq q j1 j2 wtype = .ok (Dq, hq)) :
    ∃ ps : List (ℝ × ℝ),
      mapExcept (MFS_fit mrq q j1 j2 wtype) (List.range q.length) =
        .ok ps ∧
      Dq = ps.map Prod.fst ∧ hq = ps.map Prod.snd := by
  simp only [MFS_compute] at hok
  obtain ⟨ps, hm, hpack⟩ := except_map_eq_ok hok
  simp only [Prod.mk.injEq] at hpack
  exact ⟨ps, by simpa [MFS_fit] using hm, hpack.1, hpack.2⟩

lemma MFS_fit_ok_elim {mrq : MultiResolutionQuantity} {q : List ℝ}
    {j1 j2 : ℕ} {wtype : Bool} {iq : ℕ} {pr : ℝ × ℝ}
    (h : MFS_fit mrq q j1 j2 wtype iq = .ok pr) :
    ∃ p1 p2 : ℝ × ℝ,
      linear_regression (xvec j1 j2) (winColumn j1 j2 iq (MFS_U mrq q))
        (wvec mrq j1 j2 wtype) = .ok p1 ∧
      linear_regression (xvec j1 j2) (winColumn j1 j2 iq (MFS_V mrq q))
        (wvec mrq j1 j2 wtype) = .ok p2 ∧
      pr = (1 + p1.1, p2.1) := by
  simp only [MFS_fit, bind, pure] at h
  cases h1 : linear_regression (xvec j1 j2)
      (winColumn j1 j2 iq (MFS_U mrq q)) (wvec mrq j1 j2 wtype) with
  | error e => rw [h1, except_bind_error] at h; exact absurd h (by simp)
  | ok p1 =>
    rw [h1, except_bind_ok] at h
    cases h2 : linear_regression (xvec j1 j2)
        (winColumn j1 j2 iq (MFS_V mrq q)) (wvec mrq j1 j2 wtype) with
    | error e => rw [h2, except_bind_error] at h; exact absurd h (by simp)
    | ok p2 =>
      rw [h2, except_bind_ok] at h
      simp only [Except.pure, Except.ok.injEq] at h
      exact ⟨p1, p2, rfl, rfl, h.symm⟩

lemma winColumn_U_scales (mrq : MultiResolutionQuantity) (q : List ℝ)
    (J j1 j2 iq : ℕ) (hs : mrq.scales = List.range' 1 J)
    (h1 : 1 ≤ j1) (h2J : j2 ≤ J) (hiq : iq < q.length) :
    winColumn j1 j2 iq (MFS_U mrq q) =
      (List.range' j1 (j2 + 1 - j1)).map (fun j =>
        MFS_U_entry (mrq.nj j) ((mrq.values j).map abs)
          (q.getD iq 0)) := by
  unfold winColumn MFS_U
  rw [hs, winSlice_scales_map _ ([] : List ℝ) j1 j2 J h1 h2J,
    List.map_map]
  apply List.map_congr_left
  intro j _
  exact getD_map_of_lt _ q iq hiq 0 0

lemma winColumn_V_scales (mrq : MultiResolutionQuantity) (q : List ℝ)
    (J j1 j2 iq : ℕ) (hs : mrq.scales = List.range' 1 J)
    (h1 : 1 ≤ j1) (h2J : j2 ≤ J) (hiq : iq < q.length) :
    winColumn j1 j2 iq (MFS_V mrq q) =
      (List.range' j1 (j2 + 1 - j1)).map (fun j =>
        MFS_V_entry ((mrq.values j).map abs) (q.getD iq 0)) := by
  unfold winColumn MFS_V
  rw [hs, winSlice_scales_map _ ([] : List ℝ) j1 j2 J h1 h2J,
    List.map_map]
  apply List.map_congr_left
  intro j _
  exact getD_map_of_lt _ q iq hiq 0 0

/-- C3: the spectrum computation of `MultifractalSpectrum._compute`
(over contiguous scales `1..J` with the window inside them): at the
scale at list position `ij` (scale `j = 1 + ij`) and exponent position
`iq`, the normalized vector is `R = power(m, q_i) / sum(power(m, q_i))`
with `m = |coefficients(j)|`; `V[ij, iq] = sum(R * log2 m)` and
`U[ij, iq] = log2 n + sum(R * log2 R)` with `n = count(j)`; and
`Dq[iq]` is `1 +` the slope of the weighted regression of the `U`
window column on `x = j1..j2`, while `hq[iq]` is the slope of the same
regression applied to the `V` column. -/
theorem c3_spectrum_formulas
    (mrq : MultiResolutionQuantity) (q : List ℝ) (J j1 j2 : ℕ)
    (wtype : Bool) (Dq hq : List ℝ) (iq ij : ℕ)
    (hscales : mrq.scales = List.range' 1 J)
    (h1 : 1 ≤ j1) (h2J : j2 ≤ J)
    (hok : MFS_compute mrq q j1 j2 wtype = .ok (Dq, hq))
    (hiq : iq < q.length) (hij : ij < J) :
    (((MFS_V mrq q).getD ij []).getD iq 0 =
      (List.zipWith (fun Ri mi => Ri * log2 mi)
        ((fast_power ((mrq.values (1 + ij)).map abs) (q.getD iq 0)).map
          (fun ti => ti /
            (fast_power ((mrq.values (1 + ij)).map abs)
              (q.getD iq 0)).sum))
        ((mrq.values (1 + ij)).map abs)).sum ∧
     ((MFS_U mrq q).getD ij []).getD iq 0 =
      log2 ((mrq.nj (1 + ij) : ℝ)) +
        (((fast_power ((mrq.values (1 + ij)).map abs) (q.getD iq 0)).map
          (fun ti => ti /
            (fast_power ((mrq.values (1 + ij)).map abs)
              (q.getD iq 0)).sum)).map
          (fun Ri => Ri * log2 Ri)).sum) ∧
    ((linear_regression
        ((List.range' j1 (j2 + 1 - j1)).map (fun j => (j : ℝ)))
        ((List.range' j1 (j2 + 1 - j1)).map (fun j =>
          MFS_U_entry (mrq.nj j) ((mrq.values j).map abs)
            (q.getD iq 0)))
        (wvec mrq j1 j2 wtype)).map (fun p => 1 + p.1) =
          .ok (Dq.getD iq 0) ∧
     (linear_regression
        ((List.range' j1 (j2 + 1 - j1)).map (fun j => (j : ℝ)))
        ((List.range' j1 (j2 + 1 - j1)).map (fun j =>
          MFS_V_entry ((mrq.values j).map abs) (q.getD iq 0)))
        (wvec mrq j1 j2 wtype)).map Prod.fst = .ok (hq.getD iq 0)) := by
  obtain ⟨ps, hm, hDq, hhq⟩ := MFS_compute_ok_elim hok
  have hlen : ps.length = q.length := by
    simpa using mapExcept_ok_length hm
  have hfit := mapExcept_ok_getD hm 0 (0, 0) iq (by simpa using hiq)
  rw [getD_range q.length iq hiq 0] at hfit
  obtain ⟨p1, p2, hl1, hl2, hpr⟩ := MFS_fit_ok_elim hfit
  refine ⟨⟨?_, ?_⟩, ?_, ?_⟩
  · have hv : ((MFS_V mrq q).getD ij []).getD iq 0 =
        MFS_V_entry ((mrq.values (1 + ij)).map abs) (q.getD iq 0) := by
      unfold MFS_V
      rw [hscales,
        getD_map_of_lt _ (List.range' 1 J) ij (by simpa using hij) 0 [],
        getD_range' 1 J ij hij 0, getD_map_of_lt _ q iq hiq 0 0]
    rw [hv]
    rfl
  · have hu : ((MFS_U mrq q).getD ij []).getD iq 0 =
        MFS_U_entry (mrq.nj (1 + ij)) ((mrq.values (1 + ij)).map abs)
          (q.getD iq 0) := by
      unfold MFS_U
      rw [hscales,
        getD_map_of_lt _ (List.range' 1 J) ij (by simpa using hij) 0 [],
        getD_range' 1 J ij hij 0, getD_map_of_lt _ q iq hiq 0 0]
    rw [hu]
    rfl
  · rw [← winColumn_U_scales mrq q J j1 j2 iq hscales h1 h2J hiq,
      show ((List.range' j1 (j2 + 1 - j1)).map (fun j => (j : ℝ))) =
        xvec j1 j2 from rfl,
      hl1, except_map_ok, hDq,
      getD_map_of_lt Prod.fst ps iq (by omega) (0, 0) 0, hpr]
  · rw [← winColumn_V_scales mrq q J j1 j2 iq hscales h1 h2J hiq,
      show ((List.range' j1 (j2 + 1 - j1)).map (fun j => (j : ℝ))) =
        xvec j1 j2 from rfl,
      hl2, except_map_ok, hhq,
      getD_map_of_lt Prod.snd ps iq (by omega) (0, 0) 0, hpr]

lemma MFS_compute_exMrqA_ok :
    MFS_compute exMrqA [0] 1 2 false = .ok ([1], [0]) := by
  norm_num [MFS_compute, MFS_U, MFS_V, MFS_U_entry, MFS_V_entry,
    fast_power, log2, mapExcept, winColumn, winSlice, xvec, wvec,
    linear_regression, exMrqA, List.range', List.range_succ, List.range_zero,
    Except.pure, List.replicate, Except.map, Except.bind, Bind.bind,
    Except.instMonad]

/-- Witness for C3 at `exMrqA`, `q = [0]`, window `[1, 2]`,
unweighted. -/
theorem c3_witness :
    (((MFS_V exMrqA [0]).getD 0 []).getD 0 0 =
      (List.zipWith (fun Ri mi => Ri * log2 mi)
        ((fast_power ((exMrqA.values (1 + 0)).map abs)
            (([0] : List ℝ).getD 0 0)).map
          (fun ti => ti /
            (fast_power ((exMrqA.values (1 + 0)).map abs)
              (([0] : List ℝ).getD 0 0)).sum))
        ((exMrqA.values (1 + 0)).map abs)).sum ∧
     ((MFS_U exMrqA [0]).getD 0 []).getD 0 0 =
      log2 ((exMrqA.nj (1 + 0) : ℝ)) +
        (((fast_power ((exMrqA.values (1 + 0)).map abs)
            (([0] : List ℝ).getD 0 0)).map
          (fun ti => ti /
            (fast_power ((exMrqA.values (1 + 0)).map abs)
              (([0] : List ℝ).getD 0 0)).sum)).map
          (fun Ri => Ri * log2 Ri)).sum) ∧
    ((linear_regression
        ((List.range' 1 (2 + 1 - 1)).map (fun j => (j : ℝ)))
        ((List.range' 1 (2 + 1 - 1)).map (fun j =>
          MFS_U_entry (exMrqA.nj j) ((exMrqA.values j).map abs)
            (([0] : List ℝ).getD 0 0)))
        (wvec exMrqA 1 2 false)).map (fun p => 1 + p.1) =
          .ok (([1] : List ℝ).getD 0 0) ∧
     (linear_regression
        ((List.range' 1 (2 + 1 - 1)).map (fun j => (j : ℝ)))
        ((List.range' 1 (2 + 1 - 1)).map (fun j =>
          MFS_V_entry ((exMrqA.values j).map abs)
            (([0] : List ℝ).getD 0 0)))
        (wvec exMrqA 1 2 false)).map Prod.fst =
          .ok (([0] : List ℝ).getD 0 0)) :=
  c3_spectrum_formulas exMrqA [0] 2 1 2 false [1] [0] 0 0 rfl
    (by norm_num) (by norm_num) MFS_compute_exMrqA_ok (by norm_num)
    (by norm_num)

lemma wvec_congr (mrq mrq' : MultiResolutionQuantity) (j1 j2 : ℕ)
    (wtype : Bool)
    (hnj : ∀ j, j1 ≤ j → j ≤ j2 → mrq.nj j = mrq'.nj j) :
    wvec mrq j1 j2 wtype = wvec mrq' j1 j2 wtype := by
  cases wtype
  · rfl
  · simp only [wvec, MultiResolutionQuantity.get_nj_interv]
    apply List.map_congr_left
    intro j hj
    obtain ⟨ha, hb⟩ := List.mem_range'_1.mp hj
    rw [hnj j ha (by omega)]

lemma SF_fit_congr (mrq mrq' : MultiResolutionQuantity) (J j1 j2 : ℕ)
    (wtype : Bool) (qq : ℝ)
    (hs : mrq.scales = List.range' 1 J)
    (hs' : mrq'.scales = List.range' 1 J)
    (h1 : 1 ≤ j1) (h2J : j2 ≤ J)
    (hvals : ∀ j, j1 ≤ j → j ≤ j2 → mrq.values j = mrq'.values j)
    (hnj : ∀ j, j1 ≤ j → j ≤ j2 → mrq.nj j = mrq'.nj j) :
    SF_fit mrq j1 j2 wtype qq = SF_fit mrq' j1 j2 wtype qq := by
  unfold SF_fit
  rw [wvec_congr mrq mrq' j1 j2 wtype hnj]
  congr 1
  rw [SF_logrow_eq, SF_logrow_eq, hs, hs',
    winSlice_scales_map _ (0 : ℝ) j1 j2 J h1 h2J,
    winSlice_scales_map _ (0 : ℝ) j1 j2 J h1 h2J]
  apply List.map_congr_left
  intro j hj
  obtain ⟨ha, hb⟩ := List.mem_range'_1.mp hj
  rw [hvals j ha (by omega)]

lemma construct_proj_eq (mrq : MultiResolutionQuantity) (q : List ℝ)
    (j1 j2 : ℕ) (wtype : Bool) :
    (StructureFunction.construct mrq q j1 j2 wtype).map
        (fun sf => (sf.zeta, sf.intercept)) =
      (mapExcept (fun qq => SF_fit mrq j1 j2 wtype qq) q).map
        (fun ps => (ps.map Prod.fst, ps.map Prod.snd)) := by
  simp only [StructureFunction.construct, SF_compute_zeta, SF_fit]
  rw [SF_logvalues_eq_map, mapExcept_map]
  cases hm : mapExcept (fun qq =>
      linear_regression (xvec j1 j2)
        (winSlice j1 j2 ((SF_row mrq qq).map log2))
        (wvec mrq j1 j2 wtype)) q with
  | error e => rfl
  | ok ps => rfl

lemma MFS_compute_eq_fit (mrq : MultiResolutionQuantity) (q : List ℝ)
    (j1 j2 : ℕ) (wtype : Bool) :
    MFS_compute mrq q j1 j2 wtype =
      (mapExcept (MFS_fit mrq q j1 j2 wtype) (List.range q.length)).map
        (fun ps => (ps.map Prod.fst, ps.map Prod.snd)) := rfl

lemma winColumn_U_congr (mrq mrq' : MultiResolutionQuantity)
    (q : List ℝ) (J j1 j2 iq : ℕ)
    (hs : mrq.scales = List.range' 1 J)
    (hs' : mrq'.scales = List.range' 1 J)
    (h1 : 1 ≤ j1) (h2J : j2 ≤ J)
    (hvals : ∀ j, j1 ≤ j → j ≤ j2 → mrq.values j = mrq'.values j)
    (hnj : ∀ j, j1 ≤ j → j ≤ j2 → mrq.nj j = mrq'.nj j) :
    winColumn j1 j2 iq (MFS_U mrq q) =
      winColumn j1 j2 iq (MFS_U mrq' q) := by
  unfold winColumn MFS_U
  rw [hs, hs', winSlice_scales_map _ ([] : List ℝ) j1 j2 J h1 h2J,
    winSlice_scales_map _ ([] : List ℝ) j1 j2 J h1 h2J,
    List.map_map, List.map_map]
  apply List.map_congr_left
  intro j hj
  obtain ⟨ha, hb⟩ := List.mem_range'_1.mp hj
  simp only [Function.comp]
  rw [hvals j ha (by omega), hnj j ha (by omega)]

lemma winColumn_V_congr (mrq mrq' : MultiResolutionQuantity)
    (q : List ℝ) (J j1 j2 iq : ℕ)
    (hs : mrq.scales = List.range' 1 J)
    (hs' : mrq'.scales = List.range' 1 J)
    (h1 : 1 ≤ j1) (h2J : j2 ≤ J)
    (hvals : ∀ j, j1 ≤ j → j ≤ j2 → mrq.values j = mrq'.values j) :
    winColumn j1 j2 iq (MFS_V mrq q) =
      winColumn j1 j2 iq (MFS_V mrq' q) := by
  unfold winColumn MFS_V
  rw [hs, hs', winSlice_scales_map _ ([] : List ℝ) j1 j2 J h1 h2J,
    winSlice_scales_map _ ([] : List ℝ) j1 j2 J h1 h2J,
    List.map_map, List.map_map]
  apply List.map_congr_left
  intro j hj
  obtain ⟨ha, hb⟩ := List.mem_range'_1.mp hj
  simp only [Function.comp]
  rw [hvals j ha (by omega)]

lemma MFS_fit_congr (mrq mrq' : MultiResolutionQuantity) (q : List ℝ)
    (J j1 j2 iq : ℕ) (wtype : Bool)
    (hs : mrq.scales = List.range' 1 J)
    (hs' : mrq'.scales = List.range' 1 J)
    (h1 : 1 ≤ j1) (h2J : j2 ≤ J)
    (hvals : ∀ j, j1 ≤ j → j ≤ j2 → mrq.values j = mrq'.values j)
    (hnj : ∀ j, j1 ≤ j → j ≤ j2 → mrq.nj j = mrq'.nj j) :
    MFS_fit mrq q j1 j2 wtype iq = MFS_fit mrq' q j1 j2 wtype iq := by
  unfold MFS_fit
  rw [wvec_congr mrq mrq' j1 j2 wtype hnj,
    winColumn_U_congr mrq mrq' q J j1 j2 iq hs hs' h1 h2J hvals hnj,
    winColumn_V_congr mrq mrq' q J j1 j2 iq hs hs' h1 h2J hvals]

/-- C9: two quantities over the same contiguous scale list that agree
on the coefficient arrays and counts at the window scales `j1 .. j2`
(list positions `j1-1 .. j2-1`) produce equal regression outputs for
the same `(q, j1, j2, wtype)`: equal `zeta`/`intercept` for the
structure function and equal `Dq`/`hq` for the multifractal spectrum;
coefficients at the other scales do not influence these outputs. -/
theorem c9_window_determines_regressions
    (mrq mrq' : MultiResolutionQuantity) (q : List ℝ) (J j1 j2 : ℕ)
    (wtype : Bool)
    (hs : mrq.scales = List.range' 1 J)
    (hs' : mrq'.scales = List.range' 1 J)
    (h1 : 1 ≤ j1) (h2J : j2 ≤ J)
    (hvals : ∀ j, j1 ≤ j → j ≤ j2 → mrq.values j = mrq'.values j)
    (hnj : ∀ j, j1 ≤ j → j ≤ j2 → mrq.nj j = mrq'.nj j) :
    (StructureFunction.construct mrq q j1 j2 wtype).map
        (fun sf => (sf.zeta, sf.intercept)) =
      (StructureFunction.construct mrq' q j1 j2 wtype).map
        (fun sf => (sf.zeta, sf.intercept)) ∧
    MFS_compute mrq q j1 j2 wtype = MFS_compute mrq' q j1 j2 wtype := by
  constructor
  · rw [construct_proj_eq, construct_proj_eq,
      mapExcept_congr (fun qq _ =>
        SF_fit_congr mrq mrq' J j1 j2 wtype qq hs hs' h1 h2J hvals hnj)]
  · rw [MFS_compute_eq_fit, MFS_compute_eq_fit,
      mapExcept_congr (fun iq _ =>
        MFS_fit_congr mrq mrq' q J j1 j2 iq wtype hs hs' h1 h2J hvals
          hnj)]

/-- C10: translating `__post_init__` with the state of the supplied
quantity threaded through every statement returns the quantity
unchanged next to exactly the object the pure construction builds: the
construction never mutates the `MultiResolutionQuantity` and is a pure
function of `(mrq, q, j1, j2, wtype)`. -/
theorem c10_construction_pure_no_mutation
    (mrq : MultiResolutionQuantity) (q : List ℝ) (j1 j2 : ℕ)
    (wtype : Bool) :
    StructureFunction.construct_frame mrq q j1 j2 wtype =
      (StructureFunction.construct mrq q j1 j2 wtype).map
        (fun sf => (sf, mrq)) := by
  simp only [StructureFunction.construct_frame,
    StructureFunction.construct]
  cases hm : SF_compute_zeta mrq j1 j2 wtype (SF_logvalues mrq q) with
  | error e => rfl
  | ok zi => rfl

/-- A three-scale quantity, all coefficients `1.0`. -/
def exMrqB : MultiResolutionQuantity :=
  { name := "toy", scales := [1, 2, 3], values := fun _ => [1],
    nj := fun _ => 1 }

/-- Same as `exMrqB` on scales `1, 2` but different coefficients and
count at scale `3`. -/
def exMrqC : MultiResolutionQuantity :=
  { name := "toy", scales := [1, 2, 3],
    values := fun j => if j = 3 then [0, 5] else [1],
    nj := fun j => if j = 3 then 2 else 1 }

/-- Witness for C9: `exMrqB` and `exMrqC` differ only at scale `3`,
outside the window `[1, 2]`. -/
theorem c9_witness :
    (StructureFunction.construct exMrqB [0] 1 2 false).map
        (fun sf => (sf.zeta, sf.intercept)) =
      (StructureFunction.construct exMrqC [0] 1 2 false).map
        (fun sf => (sf.zeta, sf.intercept)) ∧
    MFS_compute exMrqB [0] 1 2 false =
      MFS_compute exMrqC [0] 1 2 false :=
  c9_window_determines_regressions exMrqB exMrqC [0] 3 1 2 false rfl
    rfl (by norm_num) (by norm_num)
    (fun j _ hj2 => by
      have hj : j ≠ 3 := by omega
      simp [exMrqB, exMrqC, hj])
    (fun j _ hj2 => by
      have hj : j ≠ 3 := by omega
      simp [exMrqB, exMrqC, hj])
